import Mathlib

/-!
Shallow embedding of the core logic of the local-llm editor extension:
the error taxonomy (src/models/errors.js), the model predicates
(src/models/apiModels.js), the HTTP retry loop and streaming parser of
LocalLLMClient (src/services/localLLMClient.js), and the graceful
degradation feature-state machine (GracefulDegradationService).
JS strings stay strings, undefined/null fields become Option, numbers
that only ever hold HTTP statuses or counters become Nat, and the
millisecond delays (which mix in Math.random()) become rationals.
-/

/-! ## Error taxonomy (src/models/errors.js, src/models/constants.js) -/

/-- ERROR_CATEGORIES from constants.js: connection, api, model, validation, runtime. -/
inductive ErrorCategory where
  | connection
  | api
  | model
  | validation
  | runtime
  deriving DecidableEq, Repr

/-- Class identity of an error object, used for the instanceof checks in the
client and the degradation service.  Each JS subclass of LMStudioError is one
constructor. -/
inductive ErrClass where
  | connection
  | api
  | model
  | validation
  | runtime
  deriving DecidableEq, Repr

/-- An LMStudioError instance.  Fields are those set by the constructors in
errors.js.  The statusCode field is only ever set by ApiError (null elsewhere),
modelId only by ModelError, vfield only by ValidationError (its untyped value
argument and the cause chain are carried by no modelled code and are omitted). -/
structure LMStudioError where
  name : String
  cls : ErrClass
  message : String
  code : String
  category : ErrorCategory
  recoverable : Bool
  statusCode : Option Nat
  modelId : Option String
  vfield : Option String
  deriving DecidableEq, Repr

/-- ConnectionError constructor: super(message, code, CONNECTION, true, cause). -/
def mkConnectionError (message code : String) : LMStudioError :=
  { name := "ConnectionError", cls := ErrClass.connection, message := message,
    code := code, category := ErrorCategory.connection, recoverable := true,
    statusCode := none, modelId := none, vfield := none }

/-- ApiError constructor: super(message, code, API, true, cause); this.statusCode. -/
def mkApiError (message code : String) (statusCode : Option Nat) : LMStudioError :=
  { name := "ApiError", cls := ErrClass.api, message := message,
    code := code, category := ErrorCategory.api, recoverable := true,
    statusCode := statusCode, modelId := none, vfield := none }

/-- ModelError constructor: super(message, code, MODEL, true, cause); this.modelId. -/
def mkModelError (message code : String) (modelId : Option String) : LMStudioError :=
  { name := "ModelError", cls := ErrClass.model, message := message,
    code := code, category := ErrorCategory.model, recoverable := true,
    statusCode := none, modelId := modelId, vfield := none }

/-- ValidationError constructor: super(message, code, VALIDATION, false); this.field. -/
def mkValidationError (message code : String) (vfield : Option String) : LMStudioError :=
  { name := "ValidationError", cls := ErrClass.validation, message := message,
    code := code, category := ErrorCategory.validation, recoverable := false,
    statusCode := none, modelId := none, vfield := vfield }

/-- RuntimeError constructor: super(message, code, RUNTIME, false, cause). -/
def mkRuntimeError (message code : String) : LMStudioError :=
  { name := "RuntimeError", cls := ErrClass.runtime, message := message,
    code := code, category := ErrorCategory.runtime, recoverable := false,
    statusCode := none, modelId := none, vfield := none }

/-- LMStudioError.isRecoverable returns this.recoverable. -/
def LMStudioError.isRecoverable (e : LMStudioError) : Bool :=
  e.recoverable

/-- createErrorFromResponse (errors.js lines 277-301): map an HTTP status and
message to a typed error.  404 gives ModelError MODEL_NOT_FOUND, 400 gives
ValidationError INVALID_REQUEST, 401 and 403 and other 4xx give ApiError, 5xx
gives ApiError SERVER_ERROR, anything else ApiError API_ERROR. -/
def createErrorFromResponse (status : Nat) (message : String) : LMStudioError :=
  if 400 ≤ status ∧ status < 500 then
    if status = 404 then mkModelError message "MODEL_NOT_FOUND" none
    else if status = 400 then mkValidationError message "INVALID_REQUEST" none
    else if status = 401 then mkApiError message "UNAUTHORIZED" (some status)
    else if status = 403 then mkApiError message "FORBIDDEN" (some status)
    else mkApiError message "CLIENT_ERROR" (some status)
  else if 500 ≤ status then
    mkApiError message "SERVER_ERROR" (some status)
  else
    mkApiError message "API_ERROR" (some status)

/-- A raw JS error coming out of fetch (network failure, timeout abort).
Such errors have a name, a message, and possibly a code property. -/
structure NetworkErrorJs where
  name : String
  message : String
  code : Option String
  deriving DecidableEq, Repr

/-- A value thrown inside the makeRequest try block: either a typed
LMStudioError (built from a non-2xx response) or the raw error thrown by
fetch itself. -/
inductive Thrown where
  | lmError (e : LMStudioError)
  | netError (e : NetworkErrorJs)
  deriving DecidableEq, Repr

/-- The code property read by createConnectionError: on an LMStudioError it is
the error code string, on a raw error it is the optional code property. -/
def Thrown.errCode : Thrown → Option String
  | Thrown.lmError e => some e.code
  | Thrown.netError e => e.code

/-- The name property read by createConnectionError. -/
def Thrown.errName : Thrown → String
  | Thrown.lmError e => e.name
  | Thrown.netError e => e.name

/-- The message property read by createConnectionError. -/
def Thrown.errMessage : Thrown → String
  | Thrown.lmError e => e.message
  | Thrown.netError e => e.message

/-- createConnectionError (errors.js lines 308-334): wrap a caught error as a
ConnectionError based on its code and name properties. -/
def createConnectionError (err : Thrown) : LMStudioError :=
  if err.errCode = some "ECONNREFUSED" then
    mkConnectionError "Connection refused by LM Studio server" "CONNECTION_REFUSED"
  else if err.errCode = some "ETIMEDOUT" ∨ err.errName = "TimeoutError" then
    mkConnectionError "Connection to LM Studio timed out" "TIMEOUT"
  else if err.errCode = some "ENOTFOUND" then
    mkConnectionError "LM Studio server not found" "SERVER_NOT_FOUND"
  else
    mkConnectionError ("Network error: " ++ err.errMessage) "NETWORK_ERROR"

/-! ## Model data and predicates (src/models/apiModels.js) -/

/-- Raw API data handed to the Model constructor; absent or null JSON fields
become none. -/
structure ModelData where
  id : Option String
  object : Option String
  type : Option String
  publisher : Option String
  arch : Option String
  compatibility_type : Option String
  quantization : Option String
  state : Option String
  max_context_length : Option Nat
  deriving DecidableEq, Repr

/-- A Model instance as built by the constructor. -/
structure Model where
  id : Option String
  object : String
  type : Option String
  publisher : Option String
  arch : Option String
  compatibility_type : Option String
  quantization : Option String
  state : Option String
  max_context_length : Option Nat
  deriving DecidableEq, Repr

/-- Model constructor: copies the fields, defaulting object to the constant
API_OBJECT_TYPES.MODEL when data.object is falsy. -/
def Model.ofData (d : ModelData) : Model :=
  { id := d.id
    object := match d.object with
      | some s => if s = "" then "model" else s
      | none => "model"
    type := d.type
    publisher := d.publisher
    arch := d.arch
    compatibility_type := d.compatibility_type
    quantization := d.quantization
    state := d.state
    max_context_length := d.max_context_length }

/-- Model.isLoaded: an undefined or null state is treated as loaded; otherwise
the state must be the MODEL_STATES.LOADED constant or ready or active. -/
def Model.isLoaded (m : Model) : Bool :=
  match m.state with
  | none => true
  | some s => s == "loaded" || s == "ready" || s == "active"

/-- Model.supportsChat: an undefined or null type is treated as chat capable;
otherwise the type must be MODEL_TYPES.LLM or MODEL_TYPES.VLM. -/
def Model.supportsChat (m : Model) : Bool :=
  match m.type with
  | none => true
  | some t => t == "llm" || t == "vlm"

/-- Model.supportsEmbeddings: only an explicit embeddings type qualifies. -/
def Model.supportsEmbeddings (m : Model) : Bool :=
  m.type == some "embeddings"

/-! ## LocalLLMClient.makeRequest retry loop (localLLMClient.js lines 108-168)

The environment is an oracle fetchAt mapping the attempt number to what the
fetch call does at that attempt, and an oracle rand giving the Math.random()
value drawn at that attempt.  The run is summarised as a trace: how many fetch
calls happened, the backoff delays slept, and the final outcome: the status of
the returned 2xx response or the thrown value. -/

/-- What one fetch call yields: a response with a status (errorMessage stands
for the message extracted from the body at lines 117-125, used only when the
response is not ok), or a thrown network or timeout error. -/
inductive FetchOutcome where
  | response (status : Nat) (errorMessage : String)
  | networkFailure (e : NetworkErrorJs)
  deriving DecidableEq, Repr

/-- response.ok per the fetch specification: status in the range 200-299. -/
def responseOk (status : Nat) : Bool :=
  decide (200 ≤ status) && decide (status < 300)

/-- The body of one try block iteration: a 2xx response is returned, a non-2xx
response throws createErrorFromResponse, a fetch failure throws the raw error. -/
def attemptOutcome (fetchAt : Nat → FetchOutcome) (attempt : Nat) : Except Thrown Nat :=
  match fetchAt attempt with
  | FetchOutcome.response status errorMessage =>
    if responseOk status then Except.ok status
    else Except.error (Thrown.lmError (createErrorFromResponse status errorMessage))
  | FetchOutcome.networkFailure e => Except.error (Thrown.netError e)

/-- The no-retry guard at line 144: error instanceof ApiError with a 4xx
statusCode.  A null statusCode compares false in JS. -/
def isApiClientError : Thrown → Bool
  | Thrown.lmError e =>
    decide (e.cls = ErrClass.api) &&
      (match e.statusCode with
       | some sc => decide (400 ≤ sc) && decide (sc < 500)
       | none => false)
  | Thrown.netError _ => false

/-- The instanceof ApiError test at line 154 guarding the conversion of the
pending lastError into a ConnectionError. -/
def isApiInstance : Thrown → Bool
  | Thrown.lmError e => decide (e.cls = ErrClass.api)
  | Thrown.netError _ => false

/-- Summary of one makeRequest run: number of fetch calls performed, backoff
delays slept between attempts, and the result (ok status or thrown value). -/
structure RequestTrace where
  fetchCount : Nat
  delays : List ℚ
  result : Except Thrown Nat
  deriving Repr

/-- Backoff delay before the retry after the given attempt (lines 159-161):
baseDelay = 1000 times 2 to the attempt, jitter = Math.random() times 0.1
times baseDelay, delay = min(baseDelay + jitter, 10000). -/
def delayFor (attempt : Nat) (r : ℚ) : ℚ :=
  let baseDelay : ℚ := 1000 * 2 ^ attempt
  let jitter : ℚ := r * (1 / 10) * baseDelay
  min (baseDelay + jitter) 10000

/-- The for loop of makeRequest, one call per iteration.  remaining encodes
how many loop iterations are still allowed after this one, so the loop test
attempt equals retryAttempts becomes remaining equals 0 (the entry point keeps
attempt plus remaining equal to retryAttempts).  lastError is the variable of
line 102: it is reassigned to the caught error at the top of every catch
block, so the value thrown after the loop is always the error of the final
iteration and the ConnectionError rewrap at line 155 never escapes; it is
threaded here exactly as in the source. -/
def makeRequestGo (fetchAt : Nat → FetchOutcome) (rand : Nat → ℚ) :
    Nat → Nat → Option Thrown → RequestTrace
  | attempt, remaining, _lastError =>
    match attemptOutcome fetchAt attempt with
    | Except.ok status => ⟨1, [], Except.ok status⟩
    | Except.error thrown =>
      if isApiClientError thrown then
        ⟨1, [], Except.error thrown⟩
      else
        match remaining with
        | 0 => ⟨1, [], Except.error thrown⟩
        | r + 1 =>
          let lastError : Thrown :=
            if isApiInstance thrown then thrown
            else Thrown.lmError (createConnectionError thrown)
          let rest := makeRequestGo fetchAt rand (attempt + 1) r (some lastError)
          ⟨rest.fetchCount + 1, delayFor attempt (rand attempt) :: rest.delays, rest.result⟩

/-- makeRequest with the given configured retryAttempts: run the loop from
attempt 0 with lastError initially unset. -/
def makeRequest (fetchAt : Nat → FetchOutcome) (rand : Nat → ℚ)
    (retryAttempts : Nat) : RequestTrace :=
  makeRequestGo fetchAt rand 0 retryAttempts none

/-! ## Streaming parser of streamChatCompletion (localLLMClient.js lines 510-539)

The decoded byte stream is a list of chunk strings in read order.  JSON.parse
is abstracted as an oracle parse into an arbitrary type J, returning none
exactly when the source JSON.parse would throw.  The run is summarised by the
list of values handed to onChunk, in call order, together with whether the
function returned early on the DONE sentinel. -/

/-- The JS startsWith test: the first characters of s are exactly pre. -/
def jsStartsWith (s pre : String) : Bool :=
  s.take pre.length == pre

/-- The JS split on a newline separator, written out on the character list:
every separator occurrence cuts, empty segments included. -/
def jsSplitNewlineAux : List Char → List Char → List (List Char)
  | [], acc => [acc.reverse]
  | c :: cs, acc =>
    if c = '\n' then acc.reverse :: jsSplitNewlineAux cs []
    else jsSplitNewlineAux cs (c :: acc)

/-- chunk.split on the newline character. -/
def jsSplitNewline (s : String) : List String :=
  (jsSplitNewlineAux s.data []).map String.mk

/-- The truthiness of line.trim(): the line has some non-whitespace
character. -/
def lineHasContent (line : String) : Bool :=
  line.data.any (fun c => !c.isWhitespace)

/-- chunk.split on newline, keeping only lines whose trim is nonempty. -/
def chunkLines (chunk : String) : List String :=
  (jsSplitNewline chunk).filter (fun line => lineHasContent line)

/-- The inner for loop over the lines of one chunk: only lines starting with
the data marker are considered, the payload after it either ends the stream
when it is the DONE sentinel, parses and is emitted, or fails to parse and is
skipped.  Returns the emitted values and whether the DONE sentinel was hit. -/
def processLines {J : Type} (parse : String → Option J) : List String → List J × Bool
  | [] => ([], false)
  | line :: rest =>
    if jsStartsWith line "data: " then
      let data := line.drop 6
      if data = "[DONE]" then ([], true)
      else
        match parse data with
        | some chunkObj =>
          let tail := processLines parse rest
          (chunkObj :: tail.1, tail.2)
        | none => processLines parse rest
    else processLines parse rest

/-- The outer reader loop: process each decoded chunk in order, stopping as
soon as a chunk hits the DONE sentinel (the early return at line 527). -/
def streamChatCompletionParse {J : Type} (parse : String → Option J) :
    List String → List J × Bool
  | [] => ([], false)
  | chunk :: restChunks =>
    let res := processLines parse (chunkLines chunk)
    if res.2 then res
    else
      let tail := streamChatCompletionParse parse restChunks
      (res.1 ++ tail.1, tail.2)

/-- Specification-side reading of the stream framing: the payloads of the
lines carrying the data marker, up to but excluding the first DONE sentinel. -/
def dataPayloads : List String → List String
  | [] => []
  | line :: rest =>
    if jsStartsWith line "data: " then
      let data := line.drop 6
      if data = "[DONE]" then []
      else data :: dataPayloads rest
    else dataPayloads rest

/-- Whether some line carrying the data marker has the DONE sentinel payload. -/
def hasDoneMarker : List String → Bool
  | [] => false
  | line :: rest =>
    if jsStartsWith line "data: " then
      if line.drop 6 = "[DONE]" then true else hasDoneMarker rest
    else hasDoneMarker rest

/-! ## GracefulDegradationService feature-state machine -/

/-- FEATURE_STATES: available, limited, unavailable, disabled. -/
inductive FState where
  | available
  | limited
  | unavailable
  | disabled
  deriving DecidableEq, Repr

/-- FALLBACK_STRATEGIES: the four known strategy strings; any other string
falls into the default branch of the strategy switch. -/
inductive FallbackStrategy where
  | cached
  | simplified
  | guidance
  | disable
  | other (nm : String)
  deriving DecidableEq, Repr

/-- The _featureStates Map: a feature name is either absent or mapped to a
state. -/
def FeatureMap : Type := String → Option FState

/-- getFeatureState: the stored state, defaulting to unavailable when the
feature was never set (the stored states are nonempty strings, so the JS
falsy-default is exactly the absent case). -/
def getFeatureState (m : FeatureMap) (featureName : String) : FState :=
  (m featureName).getD FState.unavailable

/-- setFeatureState: store the state under the feature name (the change
notification it fires is UI only and not modelled). -/
def setFeatureState (m : FeatureMap) (featureName : String) (state : FState) :
    FeatureMap :=
  fun g => if g = featureName then some state else m g

/-- The dependent features iterated by the connection-loss branch. -/
def dependentFeatures : List String :=
  ["models", "chat", "completion", "embeddings"]

/-- _handleConnectionStateChange (lines 275-291): on restore, set connection
available and promote every other stored feature that is unavailable to
limited; on loss, set connection unavailable and force the dependent features
to unavailable. -/
def handleConnectionStateChange (m : FeatureMap) (isConnected : Bool) : FeatureMap :=
  if isConnected then
    let m1 := setFeatureState m "connection" FState.available
    fun feature =>
      if feature ≠ "connection" ∧ m1 feature = some FState.unavailable then
        some FState.limited
      else m1 feature
  else
    let m1 := setFeatureState m "connection" FState.unavailable
    dependentFeatures.foldl
      (fun acc feature => setFeatureState acc feature FState.unavailable) m1

/-- The new feature state chosen by _handleOperationFailure (lines 304-314)
from the instanceof class of the error; for an ApiError a null statusCode
compares below 500 in JS, giving limited. -/
def failureNewState (e : Thrown) : FState :=
  match e with
  | Thrown.lmError err =>
    if err.cls = ErrClass.connection then FState.unavailable
    else if err.cls = ErrClass.model then FState.limited
    else if err.cls = ErrClass.api then
      (match err.statusCode with
       | some sc => if 500 ≤ sc then FState.unavailable else FState.limited
       | none => FState.limited)
    else FState.unavailable
  | Thrown.netError _ => FState.unavailable

/-- What executeWithDegradation hands back, by provenance: the operation
result, the caller-supplied fallbackValue, the cached or simplified fallback
payload for a feature, or the custom fallbackHandler result. -/
inductive DegradedValue (α : Type) where
  | opResult (a : α)
  | fallbackValue
  | cachedFallback (feature : String)
  | simplifiedFallback (feature : String)
  | handlerResult
  deriving DecidableEq, Repr

/-- _handleOperationFailure (lines 303-336): record the new feature state,
then run the fallback strategy; the disable strategy additionally forces the
feature to disabled.  The guidance popup and logging are UI only. -/
def handleOperationFailure {α : Type} (m : FeatureMap) (featureName : String)
    (e : Thrown) (strategy : FallbackStrategy) (hasHandler : Bool) :
    DegradedValue α × FeatureMap :=
  let m1 := setFeatureState m featureName (failureNewState e)
  match strategy with
  | FallbackStrategy.cached => (DegradedValue.cachedFallback featureName, m1)
  | FallbackStrategy.simplified => (DegradedValue.simplifiedFallback featureName, m1)
  | FallbackStrategy.guidance => (DegradedValue.fallbackValue, m1)
  | FallbackStrategy.disable =>
    (DegradedValue.fallbackValue, setFeatureState m1 featureName FState.disabled)
  | FallbackStrategy.other _ =>
    (if hasHandler then DegradedValue.handlerResult else DegradedValue.fallbackValue, m1)

/-- Result of one executeWithDegradation call: the value returned, the feature
states afterwards, and whether the supplied operation was invoked. -/
structure ExecOutcome (α : Type) where
  value : DegradedValue α
  states : FeatureMap
  operationInvoked : Bool

/-- executeWithDegradation (lines 122-155): a disabled feature short-circuits
through _handleDisabledFeature (warning popup, returns fallbackValue) without
running the operation; otherwise the operation runs, success marks the feature
available, failure goes through _handleOperationFailure.  The operation
outcome is the oracle op. -/
def executeWithDegradation {α : Type} (m : FeatureMap) (featureName : String)
    (op : Except Thrown α) (strategy : FallbackStrategy) (hasHandler : Bool) :
    ExecOutcome α :=
  if getFeatureState m featureName = FState.disabled then
    ⟨DegradedValue.fallbackValue, m, false⟩
  else
    match op with
    | Except.ok a =>
      ⟨DegradedValue.opResult a, setFeatureState m featureName FState.available, true⟩
    | Except.error e =>
      let vm := handleOperationFailure m featureName e strategy hasHandler
      ⟨vm.1, vm.2, true⟩

/-! ## Theorems -/

/-- C9: the recoverability flag is fixed by the error class: ConnectionError,
ApiError and ModelError are recoverable, ValidationError and RuntimeError are
not, and isRecoverable returns exactly this flag. -/
theorem error_recoverability_fixed_by_class :
    (∀ (message code : String),
        (mkConnectionError message code).recoverable = true ∧
        (mkConnectionError message code).isRecoverable = true)
    ∧ (∀ (message code : String) (sc : Option Nat),
        (mkApiError message code sc).recoverable = true ∧
        (mkApiError message code sc).isRecoverable = true)
    ∧ (∀ (message code : String) (mid : Option String),
        (mkModelError message code mid).recoverable = true ∧
        (mkModelError message code mid).isRecoverable = true)
    ∧ (∀ (message code : String) (fld : Option String),
        (mkValidationError message code fld).recoverable = false ∧
        (mkValidationError message code fld).isRecoverable = false)
    ∧ (∀ (message code : String),
        (mkRuntimeError message code).recoverable = false ∧
        (mkRuntimeError message code).isRecoverable = false) :=
  ⟨fun _ _ => ⟨rfl, rfl⟩, fun _ _ _ => ⟨rfl, rfl⟩, fun _ _ _ => ⟨rfl, rfl⟩,
   fun _ _ _ => ⟨rfl, rfl⟩, fun _ _ => ⟨rfl, rfl⟩⟩

/-- C8: a Model built from data whose type field is undefined or null supports
chat, and when its load-state field is also undefined or null it counts as
loaded. -/
theorem model_undefined_type_chat_capable_and_loaded (d : ModelData)
    (ht : d.type = none) :
    (Model.ofData d).supportsChat = true ∧
    (d.state = none → (Model.ofData d).isLoaded = true) := by
  refine ⟨?_, fun hs => ?_⟩
  · simp [Model.ofData, Model.supportsChat, ht]
  · simp [Model.ofData, Model.isLoaded, hs]

/-- Witness for C8 at the all-absent model data. -/
theorem model_undefined_type_chat_capable_and_loaded_witness :
    (Model.ofData ⟨none, none, none, none, none, none, none, none, none⟩).supportsChat
        = true ∧
    (Model.ofData ⟨none, none, none, none, none, none, none, none, none⟩).isLoaded
        = true := by
  have h := model_undefined_type_chat_capable_and_loaded
    ⟨none, none, none, none, none, none, none, none, none⟩ rfl
  exact ⟨h.1, h.2 rfl⟩

/-- C1: the code classifies a 404 as the model-not-found ModelError, but then
does retry it: with retryAttempts 1 and a server answering 404 on every
attempt, makeRequest performs 2 fetch calls before throwing, because the
no-retry guard at line 144 tests instanceof ApiError and a ModelError is not
an ApiError.  This contradicts the comment at line 143 and the no-retry test
in the suite. -/
theorem makeRequest_retries_404_model_not_found :
    createErrorFromResponse 404 "Model not found" =
        mkModelError "Model not found" "MODEL_NOT_FOUND" none
    ∧ (makeRequest (fun _ => FetchOutcome.response 404 "Model not found")
          (fun _ => 0) 1).fetchCount = 2
    ∧ (makeRequest (fun _ => FetchOutcome.response 404 "Model not found")
          (fun _ => 0) 1).result =
        Except.error (Thrown.lmError
          (mkModelError "Model not found" "MODEL_NOT_FOUND" none)) :=
  ⟨rfl, rfl, rfl⟩

/-- C2: the code classifies a 400 as a ValidationError, but then does retry
it: with retryAttempts 1 and a server answering 400 on every attempt,
makeRequest performs 2 fetch calls, because a ValidationError is not an
instanceof ApiError; the error finally thrown is still the ValidationError of
the last attempt (the ConnectionError rewrap at line 155 never escapes). -/
theorem makeRequest_retries_400_validation_error :
    createErrorFromResponse 400 "Bad request" =
        mkValidationError "Bad request" "INVALID_REQUEST" none
    ∧ (makeRequest (fun _ => FetchOutcome.response 400 "Bad request")
          (fun _ => 0) 1).fetchCount = 2
    ∧ (makeRequest (fun _ => FetchOutcome.response 400 "Bad request")
          (fun _ => 0) 1).result =
        Except.error (Thrown.lmError
          (mkValidationError "Bad request" "INVALID_REQUEST" none)) :=
  ⟨rfl, rfl, rfl⟩

/-- Every run of the loop performs between 1 and remaining plus 1 fetch calls. -/
theorem makeRequestGo_fetchCount_bounds (fetchAt : Nat → FetchOutcome)
    (rand : Nat → ℚ) (remaining : Nat) :
    ∀ (attempt : Nat) (le : Option Thrown),
      1 ≤ (makeRequestGo fetchAt rand attempt remaining le).fetchCount ∧
      (makeRequestGo fetchAt rand attempt remaining le).fetchCount ≤ remaining + 1 := by
  induction remaining with
  | zero =>
    intro attempt le
    unfold makeRequestGo
    cases h : attemptOutcome fetchAt attempt with
    | ok s => simp
    | error t => by_cases hc : isApiClientError t <;> simp [hc]
  | succ r ih =>
    intro attempt le
    unfold makeRequestGo
    cases h : attemptOutcome fetchAt attempt with
    | ok s => simp
    | error t =>
      by_cases hc : isApiClientError t
      · simp [hc]
      · have hr := ih (attempt + 1)
          (some (if isApiInstance t then t
                 else Thrown.lmError (createConnectionError t)))
        simp only [hc, if_false, Bool.false_eq_true]
        refine ⟨Nat.le_add_left 1 _, ?_⟩
        have := hr.2
        omega

/-- A successful result comes from the first 2xx attempt: the run made c plus 1
fetch calls, attempt number c (counting from the start offset) returned the
2xx response, and every earlier attempt threw. -/
theorem makeRequestGo_ok_first_success (fetchAt : Nat → FetchOutcome)
    (rand : Nat → ℚ) (remaining : Nat) :
    ∀ (attempt : Nat) (le : Option Thrown) (s : Nat),
      (makeRequestGo fetchAt rand attempt remaining le).result = Except.ok s →
      ∃ c, (makeRequestGo fetchAt rand attempt remaining le).fetchCount = c + 1 ∧
        attemptOutcome fetchAt (attempt + c) = Except.ok s ∧
        ∀ k, k < c → ∃ t, attemptOutcome fetchAt (attempt + k) = Except.error t := by
  induction remaining with
  | zero =>
    intro attempt le s hres
    unfold makeRequestGo at hres ⊢
    cases h : attemptOutcome fetchAt attempt with
    | ok s' =>
      simp only [h] at hres ⊢
      refine ⟨0, rfl, ?_, by omega⟩
      rw [Nat.add_zero, h]
      exact congrArg Except.ok (Except.ok.injEq .. ▸ hres).symm ▸ hres
    | error t =>
      by_cases hc : isApiClientError t <;> simp [h, hc] at hres
  | succ r ih =>
    intro attempt le s hres
    unfold makeRequestGo at hres ⊢
    cases h : attemptOutcome fetchAt attempt with
    | ok s' =>
      simp only [h] at hres ⊢
      refine ⟨0, rfl, ?_, by omega⟩
      rw [Nat.add_zero, h]
      exact hres ▸ rfl
    | error t =>
      by_cases hc : isApiClientError t
      · simp [h, hc] at hres
      · simp only [h, hc, if_false, Bool.false_eq_true] at hres ⊢
        obtain ⟨c, hcount, hout, hprev⟩ := ih (attempt + 1)
          (some (if isApiInstance t then t
                 else Thrown.lmError (createConnectionError t))) s hres
        refine ⟨c + 1, by simp [hcount], ?_, ?_⟩
        · have : attempt + (c + 1) = attempt + 1 + c := by omega
          rw [this]; exact hout
        · intro k hk
          cases k with
          | zero => exact ⟨t, by rw [Nat.add_zero]; exact h⟩
          | succ j =>
            have hj : j < c := by omega
            obtain ⟨u, hu⟩ := hprev j hj
            exact ⟨u, by rw [show attempt + (j + 1) = attempt + 1 + j by omega]; exact hu⟩

/-- An error result is the error thrown by the final attempt, and the run
either exhausted all allowed attempts or hit the no-retry 4xx ApiError guard;
every earlier attempt also threw. -/
theorem makeRequestGo_error_last_attempt (fetchAt : Nat → FetchOutcome)
    (rand : Nat → ℚ) (remaining : Nat) :
    ∀ (attempt : Nat) (le : Option Thrown) (t : Thrown),
      (makeRequestGo fetchAt rand attempt remaining le).result = Except.error t →
      ∃ c, (makeRequestGo fetchAt rand attempt remaining le).fetchCount = c + 1 ∧
        attemptOutcome fetchAt (attempt + c) = Except.error t ∧
        (c = remaining ∨ isApiClientError t = true) ∧
        ∀ k, k < c → ∃ u, attemptOutcome fetchAt (attempt + k) = Except.error u := by
  induction remaining with
  | zero =>
    intro attempt le t hres
    unfold makeRequestGo at hres ⊢
    cases h : attemptOutcome fetchAt attempt with
    | ok s => simp [h] at hres
    | error t' =>
      by_cases hc : isApiClientError t'
      · simp only [h, hc, if_true] at hres ⊢
        have ht : t' = t := by simpa using hres
        subst ht
        exact ⟨0, rfl, by rw [Nat.add_zero]; exact h, Or.inl rfl, by omega⟩
      · simp only [h, hc, if_false, Bool.false_eq_true] at hres ⊢
        have ht : t' = t := by simpa using hres
        subst ht
        exact ⟨0, rfl, by rw [Nat.add_zero]; exact h, Or.inl rfl, by omega⟩
  | succ r ih =>
    intro attempt le t hres
    unfold makeRequestGo at hres ⊢
    cases h : attemptOutcome fetchAt attempt with
    | ok s => simp [h] at hres
    | error t' =>
      by_cases hc : isApiClientError t'
      · simp only [h, hc, if_true] at hres ⊢
        have ht : t' = t := by simpa using hres
        subst ht
        exact ⟨0, rfl, by rw [Nat.add_zero]; exact h, Or.inr hc, by omega⟩
      · simp only [h, hc, if_false, Bool.false_eq_true] at hres ⊢
        obtain ⟨c, hcount, hout, hdisj, hprev⟩ := ih (attempt + 1)
          (some (if isApiInstance t' then t'
                 else Thrown.lmError (createConnectionError t'))) t hres
        refine ⟨c + 1, by simp [hcount], ?_, ?_, ?_⟩
        · rw [show attempt + (c + 1) = attempt + 1 + c by omega]; exact hout
        · rcases hdisj with hce | hapi
          · exact Or.inl (by omega)
          · exact Or.inr hapi
        · intro k hk
          cases k with
          | zero => exact ⟨t', by rw [Nat.add_zero]; exact h⟩
          | succ j =>
            have hj : j < c := by omega
            obtain ⟨u, hu⟩ := hprev j hj
            exact ⟨u, by rw [show attempt + (j + 1) = attempt + 1 + j by omega]; exact hu⟩

/-- C3: makeRequest performs at most retryAttempts plus 1 fetch calls in
total, and terminates either by returning the first 2xx response (every
earlier attempt having failed) or by throwing the error of the last attempt,
the attempts being exhausted unless the no-retry 4xx ApiError guard ended the
loop early. -/
theorem makeRequest_bounded_attempts_and_terminal_state
    (fetchAt : Nat → FetchOutcome) (rand : Nat → ℚ) (N : Nat) :
    (1 ≤ (makeRequest fetchAt rand N).fetchCount ∧
     (makeRequest fetchAt rand N).fetchCount ≤ N + 1)
    ∧ (∀ s, (makeRequest fetchAt rand N).result = Except.ok s →
        ∃ c, (makeRequest fetchAt rand N).fetchCount = c + 1 ∧
          attemptOutcome fetchAt c = Except.ok s ∧
          ∀ k, k < c → ∃ t, attemptOutcome fetchAt k = Except.error t)
    ∧ (∀ t, (makeRequest fetchAt rand N).result = Except.error t →
        ∃ c, (makeRequest fetchAt rand N).fetchCount = c + 1 ∧
          attemptOutcome fetchAt c = Except.error t ∧
          (c = N ∨ isApiClientError t = true)) := by
  refine ⟨makeRequestGo_fetchCount_bounds fetchAt rand N 0 none, ?_, ?_⟩
  · intro s hres
    obtain ⟨c, hcount, hout, hprev⟩ :=
      makeRequestGo_ok_first_success fetchAt rand N 0 none s hres
    refine ⟨c, hcount, by simpa using hout, fun k hk => ?_⟩
    obtain ⟨t, ht⟩ := hprev k hk
    exact ⟨t, by simpa using ht⟩
  · intro t hres
    obtain ⟨c, hcount, hout, hdisj, _⟩ :=
      makeRequestGo_error_last_attempt fetchAt rand N 0 none t hres
    exact ⟨c, hcount, by simpa using hout, hdisj⟩

/-- Witness for C3: one configured attempt, server answering 500, run at the
concrete trace. -/
theorem makeRequest_bounded_attempts_and_terminal_state_witness :
    (makeRequest (fun _ => FetchOutcome.response 500 "boom") (fun _ => 0) 0).fetchCount
        ≤ 0 + 1
    ∧ ∃ c, (makeRequest (fun _ => FetchOutcome.response 500 "boom")
          (fun _ => 0) 0).fetchCount = c + 1 ∧
        attemptOutcome (fun _ => FetchOutcome.response 500 "boom") c =
          Except.error (Thrown.lmError (mkApiError "boom" "SERVER_ERROR" (some 500))) ∧
        (c = 0 ∨ isApiClientError
          (Thrown.lmError (mkApiError "boom" "SERVER_ERROR" (some 500))) = true) := by
  have h := makeRequest_bounded_attempts_and_terminal_state
    (fun _ => FetchOutcome.response 500 "boom") (fun _ => 0) 0
  exact ⟨h.1.2, h.2.2 _ rfl⟩

/-- The i-th delay slept by the loop is the backoff delay of attempt number
start plus i with the random draw of that attempt. -/
theorem makeRequestGo_delays_indexed (fetchAt : Nat → FetchOutcome)
    (rand : Nat → ℚ) (remaining : Nat) :
    ∀ (attempt : Nat) (le : Option Thrown) (i : Nat),
      i < (makeRequestGo fetchAt rand attempt remaining le).delays.length →
      (makeRequestGo fetchAt rand attempt remaining le).delays.getD i 0 =
        delayFor (attempt + i) (rand (attempt + i)) := by
  induction remaining with
  | zero =>
    intro attempt le i hi
    unfold makeRequestGo at hi ⊢
    cases h : attemptOutcome fetchAt attempt with
    | ok s => simp [h] at hi
    | error t => by_cases hc : isApiClientError t <;> simp [h, hc] at hi
  | succ r ih =>
    intro attempt le i hi
    unfold makeRequestGo at hi ⊢
    cases h : attemptOutcome fetchAt attempt with
    | ok s => simp [h] at hi
    | error t =>
      by_cases hc : isApiClientError t
      · simp [h, hc] at hi
      · simp only [h, hc, if_false, Bool.false_eq_true] at hi ⊢
        cases i with
        | zero => simp
        | succ j =>
          have hj : j < (makeRequestGo fetchAt rand (attempt + 1) r
              (some (if isApiInstance t then t
                     else Thrown.lmError (createConnectionError t)))).delays.length := by
            simpa using hi
          have := ih (attempt + 1)
            (some (if isApiInstance t then t
                   else Thrown.lmError (createConnectionError t))) j hj
          simpa [show attempt + (j + 1) = attempt + 1 + j by omega] using this

/-- C5: the backoff delay of retry attempt number a equals
min(1000 times 2 to the a plus jitter, 10000) where the jitter lies in the
half-open interval from 0 to a tenth of the base delay; hence every delay is
at most 10000 and at least min(1000 times 2 to the a, 10000); and the delays
makeRequest actually sleeps follow exactly this formula per attempt index. -/
theorem makeRequest_backoff_delay_formula :
    (∀ (attempt : Nat) (r : ℚ), 0 ≤ r → r < 1 →
      0 ≤ r * (1 / 10) * (1000 * 2 ^ attempt) ∧
      r * (1 / 10) * (1000 * 2 ^ attempt) < (1 / 10) * (1000 * 2 ^ attempt) ∧
      delayFor attempt r =
        min ((1000 * 2 ^ attempt : ℚ) + r * (1 / 10) * (1000 * 2 ^ attempt)) 10000 ∧
      delayFor attempt r ≤ 10000 ∧
      min ((1000 : ℚ) * 2 ^ attempt) 10000 ≤ delayFor attempt r)
    ∧ (∀ (fetchAt : Nat → FetchOutcome) (rand : Nat → ℚ) (N i : Nat),
        i < (makeRequest fetchAt rand N).delays.length →
        (makeRequest fetchAt rand N).delays.getD i 0 = delayFor i (rand i)) := by
  constructor
  · intro attempt r h0 h1
    have hbase : (0 : ℚ) < 1000 * 2 ^ attempt := by positivity
    have htenth : (0 : ℚ) < (1 / 10) * (1000 * 2 ^ attempt) := by positivity
    have hj0 : 0 ≤ r * (1 / 10) * (1000 * 2 ^ attempt) := by positivity
    refine ⟨hj0, ?_, rfl, ?_, ?_⟩
    · calc r * (1 / 10) * (1000 * 2 ^ attempt)
          = r * ((1 / 10) * (1000 * 2 ^ attempt)) := by ring
        _ < 1 * ((1 / 10) * (1000 * 2 ^ attempt)) :=
            mul_lt_mul_of_pos_right h1 htenth
        _ = (1 / 10) * (1000 * 2 ^ attempt) := one_mul _
    · exact min_le_right _ _
    · exact min_le_min (le_add_of_nonneg_right hj0) le_rfl
  · intro fetchAt rand N i hi
    simpa using makeRequestGo_delays_indexed fetchAt rand N 0 none i hi

/-- Witness for C5 at attempt 2 with random draw one half, and at the delay
slept before the retry of an always-404 run. -/
theorem makeRequest_backoff_delay_formula_witness :
    (0 : ℚ) ≤ 1 / 2 ∧ (1 / 2 : ℚ) < 1 ∧ delayFor 2 (1 / 2) ≤ 10000 ∧
    0 < (makeRequest (fun _ => FetchOutcome.response 404 "x")
        (fun _ => 0) 1).delays.length ∧
    (makeRequest (fun _ => FetchOutcome.response 404 "x")
        (fun _ => 0) 1).delays.getD 0 0 = delayFor 0 0 := by
  have hlen : 0 < (makeRequest (fun _ => FetchOutcome.response 404 "x")
      (fun _ => 0) 1).delays.length := by decide
  have hA := makeRequest_backoff_delay_formula.1 2 (1 / 2) (by norm_num) (by norm_num)
  have hB := makeRequest_backoff_delay_formula.2
    (fun _ => FetchOutcome.response 404 "x") (fun _ => 0) 1 0 hlen
  exact ⟨by norm_num, by norm_num, hA.2.2.2.1, hlen, hB⟩

/-- Processing a concatenation of line lists: the left part runs first, and
the right part only runs when the left part did not hit the DONE sentinel. -/
theorem processLines_append {J : Type} (parse : String → Option J) :
    ∀ l1 l2 : List String,
      processLines parse (l1 ++ l2) =
        if (processLines parse l1).2 then processLines parse l1
        else ((processLines parse l1).1 ++ (processLines parse l2).1,
              (processLines parse l2).2) := by
  intro l1
  induction l1 with
  | nil => intro l2; simp [processLines]
  | cons line rest ih =>
    intro l2
    by_cases hs : jsStartsWith line "data: "
    · by_cases hd : line.drop 6 = "[DONE]"
      · simp [processLines, hs, hd]
      · cases hp : parse (line.drop 6) with
        | some j =>
          by_cases hb : (processLines parse rest).2
          · simp [processLines, hs, hd, hp, ih, hb]
          · simp [processLines, hs, hd, hp, ih, hb]
        | none => simp [processLines, hs, hd, hp, ih]
    · simp [processLines, hs, ih]

/-- The values emitted are exactly the parse of the data payloads occurring
before the first DONE sentinel, in order, the unparseable ones skipped. -/
theorem processLines_fst (J : Type) (parse : String → Option J) :
    ∀ ls : List String,
      (processLines parse ls).1 = (dataPayloads ls).filterMap parse := by
  intro ls
  induction ls with
  | nil => simp [processLines, dataPayloads]
  | cons line rest ih =>
    by_cases hs : jsStartsWith line "data: "
    · by_cases hd : line.drop 6 = "[DONE]"
      · simp [processLines, dataPayloads, hs, hd]
      · cases hp : parse (line.drop 6) with
        | some j => simp [processLines, dataPayloads, hs, hd, hp, ih]
        | none => simp [processLines, dataPayloads, hs, hd, hp, ih]
    · simp [processLines, dataPayloads, hs, ih]

/-- The early-return flag is exactly the presence of a DONE sentinel line. -/
theorem processLines_snd (J : Type) (parse : String → Option J) :
    ∀ ls : List String, (processLines parse ls).2 = hasDoneMarker ls := by
  intro ls
  induction ls with
  | nil => simp [processLines, hasDoneMarker]
  | cons line rest ih =>
    by_cases hs : jsStartsWith line "data: "
    · by_cases hd : line.drop 6 = "[DONE]"
      · simp [processLines, hasDoneMarker, hs, hd]
      · cases hp : parse (line.drop 6) with
        | some j => simp [processLines, hasDoneMarker, hs, hd, hp, ih]
        | none => simp [processLines, hasDoneMarker, hs, hd, hp, ih]
    · simp [processLines, hasDoneMarker, hs, ih]

/-- The chunked reader loop is the line processor run on the flattened line
stream of all chunks. -/
theorem streamChatCompletionParse_flatten (J : Type) (parse : String → Option J) :
    ∀ chunks : List String,
      streamChatCompletionParse parse chunks =
        processLines parse (chunks.map chunkLines).flatten := by
  intro chunks
  induction chunks with
  | nil => simp [streamChatCompletionParse, processLines]
  | cons c cs ih =>
    simp only [streamChatCompletionParse, List.map_cons, List.flatten_cons]
    rw [processLines_append]
    by_cases hb : (processLines parse (chunkLines c)).2
    · simp [hb, ih]
    · simp [hb, ih]

/-- C4: the stream is split into lines chunk by chunk; the emitted values are
exactly the JSON-parseable payloads of the lines carrying the data marker
before the first DONE sentinel, each handed to the callback once and in stream
order; the early return happens exactly when a DONE payload occurs; a line not
carrying the data marker changes nothing; a DONE line stops everything after
it; and an unparseable payload is skipped without any emission. -/
theorem streamChatCompletion_parser_characterised :
    (∀ (J : Type) (parse : String → Option J) (chunks : List String),
      (streamChatCompletionParse parse chunks).1 =
        (dataPayloads (chunks.map chunkLines).flatten).filterMap parse ∧
      (streamChatCompletionParse parse chunks).2 =
        hasDoneMarker (chunks.map chunkLines).flatten)
    ∧ (∀ (J : Type) (parse : String → Option J) (line : String)
        (rest : List String), jsStartsWith line "data: " = false →
        processLines parse (line :: rest) = processLines parse rest)
    ∧ (∀ (J : Type) (parse : String → Option J) (line : String)
        (rest : List String), jsStartsWith line "data: " = true →
        line.drop 6 = "[DONE]" →
        processLines parse (line :: rest) = ([], true))
    ∧ (∀ (J : Type) (parse : String → Option J) (line : String)
        (rest : List String), jsStartsWith line "data: " = true →
        line.drop 6 ≠ "[DONE]" → parse (line.drop 6) = none →
        processLines parse (line :: rest) = processLines parse rest) := by
  refine ⟨fun J parse chunks => ?_, fun J parse line rest hs => ?_,
    fun J parse line rest hs hd => ?_, fun J parse line rest hs hd hp => ?_⟩
  · rw [streamChatCompletionParse_flatten]
    exact ⟨processLines_fst J parse _, processLines_snd J parse _⟩
  · simp [processLines, hs]
  · simp [processLines, hs, hd]
  · simp [processLines, hs, hd, hp]

/-- Witness for C4 on concrete lines: a line without the data marker, the DONE
sentinel line, and a data line whose payload does not parse. -/
theorem streamChatCompletion_parser_characterised_witness :
    processLines (fun s => if s = "ok" then some 1 else none) ["hello"] =
        processLines (fun s => if s = "ok" then some 1 else none) []
    ∧ processLines (fun s => if s = "ok" then some 1 else none)
        ["data: [DONE]", "data: ok"] = ([], true)
    ∧ processLines (fun s => if s = "ok" then some 1 else none) ["data: bad"] =
        processLines (fun s => if s = "ok" then some 1 else none) [] := by
  refine ⟨streamChatCompletion_parser_characterised.2.1 Nat _ "hello" [] (by decide),
    streamChatCompletion_parser_characterised.2.2.1 Nat _ "data: [DONE]"
      ["data: ok"] (by decide) (by decide),
    streamChatCompletion_parser_characterised.2.2.2 Nat _ "data: bad" []
      (by decide) (by decide) (by decide)⟩

/-- Reading a feature state after setting one. -/
theorem getFeatureState_setFeatureState (m : FeatureMap) (f g : String)
    (s : FState) :
    getFeatureState (setFeatureState m f s) g =
      if g = f then s else getFeatureState m g := by
  by_cases h : g = f <;> simp [getFeatureState, setFeatureState, h]

/-- Pointwise value of the connection-loss branch: connection and the four
dependent features are forced to unavailable, everything else untouched. -/
theorem handleConnectionStateChange_false_apply (m : FeatureMap) (g : String) :
    handleConnectionStateChange m false g =
      if g = "embeddings" then some FState.unavailable
      else if g = "completion" then some FState.unavailable
      else if g = "chat" then some FState.unavailable
      else if g = "models" then some FState.unavailable
      else if g = "connection" then some FState.unavailable
      else m g := rfl

/-- C6: a connection-loss event forces every dependent feature to unavailable;
a connection-restore event promotes every stored unavailable non-connection
feature to limited, and never moves a feature that was unavailable directly to
available. -/
theorem degradation_connection_cascade :
    (∀ (m : FeatureMap) (f : String), f ∈ dependentFeatures →
      getFeatureState (handleConnectionStateChange m false) f = FState.unavailable)
    ∧ (∀ (m : FeatureMap) (f : String), f ≠ "connection" →
        m f = some FState.unavailable →
        handleConnectionStateChange m true f = some FState.limited)
    ∧ (∀ (m : FeatureMap) (f : String), f ≠ "connection" →
        getFeatureState m f = FState.unavailable →
        getFeatureState (handleConnectionStateChange m true) f ≠ FState.available) := by
  refine ⟨fun m f hf => ?_, fun m f hne hmf => ?_, fun m f hne h => ?_⟩
  · simp only [dependentFeatures, List.mem_cons, List.not_mem_nil, or_false] at hf
    rcases hf with rfl | rfl | rfl | rfl <;>
      simp [getFeatureState, handleConnectionStateChange_false_apply]
  · simp [handleConnectionStateChange, setFeatureState, hne, hmf]
  · cases hm : m f with
    | none =>
      have : handleConnectionStateChange m true f = none := by
        simp [handleConnectionStateChange, setFeatureState, hne, hm]
      simp [getFeatureState, this]
    | some s =>
      have hs : s = FState.unavailable := by
        simpa [getFeatureState, hm] using h
      subst hs
      have : handleConnectionStateChange m true f = some FState.limited := by
        simp [handleConnectionStateChange, setFeatureState, hne, hm]
      simp [getFeatureState, this]

/-- Witness for C6: connection loss on the empty map hits chat; restore on a
map holding chat unavailable promotes it to limited. -/
theorem degradation_connection_cascade_witness :
    getFeatureState (handleConnectionStateChange (fun _ => none) false) "chat"
        = FState.unavailable
    ∧ handleConnectionStateChange (fun _ => some FState.unavailable) true "chat"
        = some FState.limited := by
  exact ⟨degradation_connection_cascade.1 (fun _ => none) "chat" (by decide),
    degradation_connection_cascade.2.1 (fun _ => some FState.unavailable) "chat"
      (by decide) rfl⟩

/-- C10: a call on a disabled feature returns the fallbackValue, never invokes
the operation, and leaves the states untouched; and a feature never set reads
as unavailable. -/
theorem executeWithDegradation_disabled_short_circuit :
    (∀ (α : Type) (m : FeatureMap) (featureName : String) (op : Except Thrown α)
        (strategy : FallbackStrategy) (hasHandler : Bool),
      getFeatureState m featureName = FState.disabled →
      (executeWithDegradation m featureName op strategy hasHandler).value =
          DegradedValue.fallbackValue ∧
      (executeWithDegradation m featureName op strategy hasHandler).states = m ∧
      (executeWithDegradation m featureName op strategy hasHandler).operationInvoked
          = false)
    ∧ (∀ (m : FeatureMap) (featureName : String), m featureName = none →
        getFeatureState m featureName = FState.unavailable) := by
  refine ⟨fun α m featureName op strategy hasHandler hd => ?_,
    fun m featureName hnone => ?_⟩
  · refine ⟨?_, ?_, ?_⟩ <;> simp [executeWithDegradation, hd]
  · simp [getFeatureState, hnone]

/-- Witness for C10 with chat disabled and a failing operation, and with the
never-set models feature of the empty map. -/
theorem executeWithDegradation_disabled_short_circuit_witness :
    (executeWithDegradation (α := Unit) (fun _ => some FState.disabled) "chat"
        (Except.error (Thrown.netError ⟨"TypeError", "fetch failed", none⟩))
        FallbackStrategy.guidance false).value = DegradedValue.fallbackValue
    ∧ (executeWithDegradation (α := Unit) (fun _ => some FState.disabled) "chat"
        (Except.error (Thrown.netError ⟨"TypeError", "fetch failed", none⟩))
        FallbackStrategy.guidance false).operationInvoked = false
    ∧ getFeatureState (fun _ => none) "models" = FState.unavailable := by
  have h := executeWithDegradation_disabled_short_circuit.1 Unit
    (fun _ => some FState.disabled) "chat"
    (Except.error (Thrown.netError ⟨"TypeError", "fetch failed", none⟩))
    FallbackStrategy.guidance false rfl
  exact ⟨h.1, h.2.2,
    executeWithDegradation_disabled_short_circuit.2 (fun _ => none) "models" rfl⟩

/-- The state chosen on an operation failure is never disabled. -/
theorem failureNewState_ne_disabled (e : Thrown) :
    failureNewState e ≠ FState.disabled := by
  rcases e with ⟨err⟩ | ⟨ne⟩
  · by_cases hc : err.cls = ErrClass.connection
    · simp [failureNewState, hc]
    · by_cases hm : err.cls = ErrClass.model
      · simp [failureNewState, hc, hm]
      · by_cases ha : err.cls = ErrClass.api
        · cases hs : err.statusCode with
          | none => simp [failureNewState, hc, hm, ha, hs]
          | some sc =>
            by_cases h5 : 500 ≤ sc <;> simp [failureNewState, hc, hm, ha, hs, h5]
        · simp [failureNewState, hc, hm, ha]
  · simp [failureNewState]

/-- C7 counterexample: with chat disabled, an observed connection loss (an
automatic event) moves chat out of disabled, to unavailable: the loss branch
forces every dependent feature to unavailable without checking for disabled. -/
theorem disabled_chat_reset_by_connection_loss :
    getFeatureState (setFeatureState (fun _ => none) "chat" FState.disabled) "chat"
        = FState.disabled
    ∧ getFeatureState
        (handleConnectionStateChange
          (setFeatureState (fun _ => none) "chat" FState.disabled) false) "chat"
        = FState.unavailable
    ∧ getFeatureState
        (handleConnectionStateChange
          (setFeatureState (fun _ => none) "chat" FState.disabled) false) "chat"
        ≠ FState.disabled := by
  refine ⟨by decide, by decide, by decide⟩

/-- C7 amended: disabled is entered by the automatic transitions only through
the disable fallback strategy on a failed operation of that very feature;
operation success, operation failure and connection restore never move a
feature out of disabled (a disabled feature does not even run its operation);
but a connection-loss event does reset the dependent features, disabled ones
included, to unavailable. -/
theorem disabled_sticky_except_connection_loss :
    (∀ (m : FeatureMap) (b : Bool) (f : String),
      getFeatureState (handleConnectionStateChange m b) f = FState.disabled →
      getFeatureState m f = FState.disabled)
    ∧ (∀ (α : Type) (m : FeatureMap) (featureName : String) (op : Except Thrown α)
        (strategy : FallbackStrategy) (hasHandler : Bool) (g : String),
        getFeatureState
          (executeWithDegradation m featureName op strategy hasHandler).states g
            = FState.disabled →
        getFeatureState m g ≠ FState.disabled →
        strategy = FallbackStrategy.disable ∧ g = featureName ∧
          ∃ e, op = Except.error e)
    ∧ (∀ (α : Type) (m : FeatureMap) (featureName : String) (op : Except Thrown α)
        (strategy : FallbackStrategy) (hasHandler : Bool) (g : String),
        getFeatureState m g = FState.disabled →
        getFeatureState
          (executeWithDegradation m featureName op strategy hasHandler).states g
            = FState.disabled)
    ∧ (∀ (m : FeatureMap) (f : String), f ≠ "connection" →
        getFeatureState m f = FState.disabled →
        getFeatureState (handleConnectionStateChange m true) f = FState.disabled) := by
  have hrestore_apply : ∀ (m : FeatureMap) (f : String), f ≠ "connection" →
      handleConnectionStateChange m true f =
        if m f = some FState.unavailable then some FState.limited else m f := by
    intro m f hne
    simp [handleConnectionStateChange, setFeatureState, hne]
  refine ⟨fun m b f h => ?_, ?_, ?_, fun m f hne hd => ?_⟩
  · cases b with
    | false =>
      rw [getFeatureState, handleConnectionStateChange_false_apply] at h
      by_cases h1 : f = "embeddings"
      · simp [h1] at h
      · by_cases h2 : f = "completion"
        · simp [h1, h2] at h
        · by_cases h3 : f = "chat"
          · simp [h1, h2, h3] at h
          · by_cases h4 : f = "models"
            · simp [h1, h2, h3, h4] at h
            · by_cases h5 : f = "connection"
              · simp [h1, h2, h3, h4, h5] at h
              · simpa [getFeatureState, h1, h2, h3, h4, h5] using h
    | true =>
      by_cases h1 : f = "connection"
      · subst h1
        have : handleConnectionStateChange m true "connection" =
            some FState.available := by
          simp [handleConnectionStateChange, setFeatureState]
        simp [getFeatureState, this] at h
      · rw [getFeatureState, hrestore_apply m f h1] at h
        by_cases h2 : m f = some FState.unavailable
        · simp [h2] at h
        · simpa [getFeatureState, h2] using h
  · intro α m featureName op strategy hasHandler g h hne
    by_cases hd : getFeatureState m featureName = FState.disabled
    · exact absurd (by simpa [executeWithDegradation, hd] using h) hne
    · cases op with
      | ok a =>
        rw [show (executeWithDegradation m featureName (Except.ok a) strategy
            hasHandler).states = setFeatureState m featureName FState.available by
          simp [executeWithDegradation, hd]] at h
        rw [getFeatureState_setFeatureState] at h
        by_cases hg : g = featureName
        · simp [hg] at h
        · exact absurd (by simpa [hg] using h) hne
      | error e =>
        cases strategy with
        | cached =>
          rw [show (executeWithDegradation m featureName (Except.error e)
              FallbackStrategy.cached hasHandler).states =
              setFeatureState m featureName (failureNewState e) by
            simp [executeWithDegradation, handleOperationFailure, hd]] at h
          rw [getFeatureState_setFeatureState] at h
          by_cases hg : g = featureName
          · rw [if_pos hg] at h
            exact absurd h (failureNewState_ne_disabled e)
          · exact absurd (by simpa [hg] using h) hne
        | simplified =>
          rw [show (executeWithDegradation m featureName (Except.error e)
              FallbackStrategy.simplified hasHandler).states =
              setFeatureState m featureName (failureNewState e) by
            simp [executeWithDegradation, handleOperationFailure, hd]] at h
          rw [getFeatureState_setFeatureState] at h
          by_cases hg : g = featureName
          · rw [if_pos hg] at h
            exact absurd h (failureNewState_ne_disabled e)
          · exact absurd (by simpa [hg] using h) hne
        | guidance =>
          rw [show (executeWithDegradation m featureName (Except.error e)
              FallbackStrategy.guidance hasHandler).states =
              setFeatureState m featureName (failureNewState e) by
            simp [executeWithDegradation, handleOperationFailure, hd]] at h
          rw [getFeatureState_setFeatureState] at h
          by_cases hg : g = featureName
          · rw [if_pos hg] at h
            exact absurd h (failureNewState_ne_disabled e)
          · exact absurd (by simpa [hg] using h) hne
        | disable =>
          by_cases hg : g = featureName
          · exact ⟨rfl, hg, e, rfl⟩
          · rw [show (executeWithDegradation m featureName (Except.error e)
                FallbackStrategy.disable hasHandler).states =
                setFeatureState (setFeatureState m featureName (failureNewState e))
                  featureName FState.disabled by
              simp [executeWithDegradation, handleOperationFailure, hd]] at h
            rw [getFeatureState_setFeatureState, if_neg hg,
              getFeatureState_setFeatureState, if_neg hg] at h
            exact absurd h hne
        | other nm =>
          rw [show (executeWithDegradation m featureName (Except.error e)
              (FallbackStrategy.other nm) hasHandler).states =
              setFeatureState m featureName (failureNewState e) by
            simp [executeWithDegradation, handleOperationFailure, hd]] at h
          rw [getFeatureState_setFeatureState] at h
          by_cases hg : g = featureName
          · rw [if_pos hg] at h
            exact absurd h (failureNewState_ne_disabled e)
          · exact absurd (by simpa [hg] using h) hne
  · intro α m featureName op strategy hasHandler g hg
    by_cases hd : getFeatureState m featureName = FState.disabled
    · simpa [executeWithDegradation, hd] using hg
    · have hgf : g ≠ featureName := fun hEq => hd (hEq ▸ hg)
      cases op with
      | ok a =>
        rw [show (executeWithDegradation m featureName (Except.ok a) strategy
            hasHandler).states = setFeatureState m featureName FState.available by
          simp [executeWithDegradation, hd]]
        rw [getFeatureState_setFeatureState, if_neg hgf]
        exact hg
      | error e =>
        cases strategy with
        | cached =>
          rw [show (executeWithDegradation m featureName (Except.error e)
              FallbackStrategy.cached hasHandler).states =
              setFeatureState m featureName (failureNewState e) by
            simp [executeWithDegradation, handleOperationFailure, hd]]
          rw [getFeatureState_setFeatureState, if_neg hgf]
          exact hg
        | simplified =>
          rw [show (executeWithDegradation m featureName (Except.error e)
              FallbackStrategy.simplified hasHandler).states =
              setFeatureState m featureName (failureNewState e) by
            simp [executeWithDegradation, handleOperationFailure, hd]]
          rw [getFeatureState_setFeatureState, if_neg hgf]
          exact hg
        | guidance =>
          rw [show (executeWithDegradation m featureName (Except.error e)
              FallbackStrategy.guidance hasHandler).states =
              setFeatureState m featureName (failureNewState e) by
            simp [executeWithDegradation, handleOperationFailure, hd]]
          rw [getFeatureState_setFeatureState, if_neg hgf]
          exact hg
        | disable =>
          rw [show (executeWithDegradation m featureName (Except.error e)
              FallbackStrategy.disable hasHandler).states =
              setFeatureState (setFeatureState m featureName (failureNewState e))
                featureName FState.disabled by
            simp [executeWithDegradation, handleOperationFailure, hd]]
          rw [getFeatureState_setFeatureState, if_neg hgf,
            getFeatureState_setFeatureState, if_neg hgf]
          exact hg
        | other nm =>
          rw [show (executeWithDegradation m featureName (Except.error e)
              (FallbackStrategy.other nm) hasHandler).states =
              setFeatureState m featureName (failureNewState e) by
            simp [executeWithDegradation, handleOperationFailure, hd]]
          rw [getFeatureState_setFeatureState, if_neg hgf]
          exact hg
  · have hmf : m f = some FState.disabled := by
      cases hm : m f with
      | none => simp [getFeatureState, hm] at hd
      | some s =>
        have : s = FState.disabled := by simpa [getFeatureState, hm] using hd
        rw [this]
    rw [getFeatureState, hrestore_apply m f hne]
    simp [hmf]

/-- Witness for the amended C7: a disabled chat survives a connection restore
and an unrelated successful models call. -/
theorem disabled_sticky_except_connection_loss_witness :
    getFeatureState
      (handleConnectionStateChange
        (setFeatureState (fun _ => none) "chat" FState.disabled) true) "chat"
      = FState.disabled
    ∧ getFeatureState
        (executeWithDegradation (α := Unit)
          (setFeatureState (fun _ => none) "chat" FState.disabled) "models"
          (Except.ok ()) FallbackStrategy.guidance false).states "chat"
      = FState.disabled := by
  exact ⟨disabled_sticky_except_connection_loss.2.2.2
      (setFeatureState (fun _ => none) "chat" FState.disabled) "chat"
      (by decide) (by decide),
    disabled_sticky_except_connection_loss.2.2.1 Unit
      (setFeatureState (fun _ => none) "chat" FState.disabled) "models"
      (Except.ok ()) FallbackStrategy.guidance false "chat" (by decide)⟩
